import Mathlib

/-!
Shallow embedding of the geometry and layout-inference core of the
`minidisplay` crate (`src/rectangle.rs`, `src/display_info.rs`,
`src/displays.rs`), together with theorems checking the crate's
natural-language specification against it.

Modelling conventions:
* Rust `i32` coordinates are modelled as `Int`, `u32` sizes as `Nat`.
  Arithmetic on `u32` wraps modulo `2^32` in release builds; where that
  wrapping matters (`Dimensions::area`) it is written explicitly as
  `% u32Mod`.  Coordinate arithmetic is modelled exactly (trap-free
  executions; Rust debug builds panic rather than wrap on overflow).
* `as u32` casts of provably non-negative differences are `Int.toNat`.
* Rust panics (`expect` on an empty mode list) are modelled as `none`.
* The OS enumeration collaborator (`enumerate_displays_platform`, behind
  `#[cfg(windows)]`) is an external input; `enumerate_displays` takes its
  result as an explicit `Except` argument.  The native `HMONITOR` handle
  inside the platform info is modelled as a numeric id.
* The `dpi_scale : f32` field of `DisplayInfo` is omitted (floating point,
  unused by every algorithm modelled here).
-/

namespace Minidisplay

/-- Position of a point in display space; Rust `i32` fields modelled as `Int`.
From `rectangle.rs`. -/
structure Position where
  left : Int
  top : Int
deriving DecidableEq, Repr

/-- Componentwise addition of positions (`impl Add for Position`). -/
def Position.add (self other : Position) : Position :=
  ⟨self.left + other.left, self.top + other.top⟩

/-- Componentwise subtraction of positions (`impl Sub for Position`). -/
def Position.sub (self other : Position) : Position :=
  ⟨self.left - other.left, self.top - other.top⟩

/-- Dimensions of a rectangle; Rust `u32` fields modelled as `Nat`.
From `rectangle.rs`. -/
structure Dimensions where
  width : Nat
  height : Nat
deriving DecidableEq, Repr

/-- Number of values of a Rust `u32`; `u32` arithmetic wraps modulo this value
in release builds. -/
def u32Mod : Nat := 4294967296

/-- Largest value of a Rust `u32` (`std::u32::MAX`). -/
def u32MAX : Nat := 4294967295

/-- Rust `Dimensions::area`: `self.width * self.height` on `u32`, wrapping modulo
`2^32` on overflow (release semantics; a debug build would panic instead of
saturating or wrapping). -/
def Dimensions.area (self : Dimensions) : Nat :=
  (self.width * self.height) % u32Mod

/-- Checked subtraction of dimensions (`impl Sub for Dimensions` returns
`Option<Dimensions>`, absent when either component would underflow). -/
def Dimensions.sub (self other : Dimensions) : Option Dimensions :=
  if self.width ≥ other.width ∧ self.height ≥ other.height then
    some ⟨self.width - other.width, self.height - other.height⟩
  else
    none

/-- Axis-aligned rectangle: a position plus unsigned dimensions.
From `rectangle.rs`. -/
structure Rectangle where
  position : Position
  dimensions : Dimensions
deriving DecidableEq, Repr

/-- Rust `Rectangle::new`. -/
def Rectangle.new (position : Position) (dimensions : Dimensions) : Rectangle :=
  ⟨position, dimensions⟩

/-- Rust `Rectangle::left`. -/
def Rectangle.left (self : Rectangle) : Int := self.position.left

/-- Rust `Rectangle::right`: `position.left + dimensions.width as i32`. -/
def Rectangle.right (self : Rectangle) : Int :=
  self.position.left + (self.dimensions.width : Int)

/-- Rust `Rectangle::top`. -/
def Rectangle.top (self : Rectangle) : Int := self.position.top

/-- Rust `Rectangle::bottom`: `position.top + dimensions.height as i32`. -/
def Rectangle.bottom (self : Rectangle) : Int :=
  self.position.top + (self.dimensions.height : Int)

/-- Rust `Rectangle::width`. -/
def Rectangle.width (self : Rectangle) : Nat := self.dimensions.width

/-- Rust `Rectangle::height`. -/
def Rectangle.height (self : Rectangle) : Nat := self.dimensions.height

/-- The `ClipRectFlags` bitflags set over four bits, modelled as four
independent booleans; `contains(KeepLeft)` etc. become field projections. -/
structure ClipRectFlags where
  keepLeft : Bool
  keepRight : Bool
  keepTop : Bool
  keepBottom : Bool
deriving DecidableEq, Repr

/-- Rust `ClipRectFlags::KeepNone` (no bits set). -/
def ClipRectFlags.KeepNone : ClipRectFlags := ⟨false, false, false, false⟩

/-- Rust `ClipRectFlags::KeepLeft`. -/
def ClipRectFlags.KeepLeft : ClipRectFlags := ⟨true, false, false, false⟩

/-- Rust `ClipRectFlags::KeepRight`. -/
def ClipRectFlags.KeepRight : ClipRectFlags := ⟨false, true, false, false⟩

/-- Rust `ClipRectFlags::KeepTop`. -/
def ClipRectFlags.KeepTop : ClipRectFlags := ⟨false, false, true, false⟩

/-- Rust `ClipRectFlags::KeepBottom`. -/
def ClipRectFlags.KeepBottom : ClipRectFlags := ⟨false, false, false, true⟩

/-- Rust `ClipRectFlags::KeepAll` = all four bits set. -/
def ClipRectFlags.KeepAll : ClipRectFlags := ⟨true, true, true, true⟩

/-- Helper `at_least(val, min)` from `rectangle.rs`: `val.max(min)`
(generic over `Ord`, used at `i32` and `u32`). -/
def at_least {α : Type} [LinearOrder α] (val m : α) : α := max val m

/-- Helper `at_most(val, max)` from `rectangle.rs`: `val.min(max)`. -/
def at_most {α : Type} [LinearOrder α] (val m : α) : α := min val m

/-- Rust `Rectangle::overlaps`: open-interval intersection on both axes. -/
def Rectangle.overlaps (self other : Rectangle) : Bool :=
  decide (self.left < other.right)
    && decide (self.right > other.left)
    && decide (self.top < other.bottom)
    && decide (self.bottom > other.top)

/-- Rust `Rectangle::contains`: `other` lies within or on the boundary of `self`. -/
def Rectangle.contains (self other : Rectangle) : Bool :=
  decide (self.left ≤ other.left)
    && decide (self.right ≥ other.right)
    && decide (self.top ≤ other.top)
    && decide (self.bottom ≥ other.bottom)

/-- Rust `Rectangle::clip` from `rectangle.rs`, translated statement by statement:
clamp `right`/`bottom` down to the bounds, derive `left`/`top` (kept, or slid
along with the clamped opposite edge) and clamp them up, re-derive
`right`/`bottom`, and fail (`none`) when no positive extent remains. -/
def Rectangle.clip (self : Rectangle) (bounds : Rectangle)
    (clip_flags : ClipRectFlags) : Option Rectangle :=
  let right := self.right
  let bottom := self.bottom
  let furthest_right := bounds.right
  let right := at_most right furthest_right
  let furthest_bottom := bounds.bottom
  let bottom := at_most bottom furthest_bottom
  let left :=
    if clip_flags.keepLeft then self.left else right - (self.width : Int)
  let left := at_least left bounds.left
  let top :=
    if clip_flags.keepTop then self.top else bottom - (self.height : Int)
  let top := at_least top bounds.top
  let right :=
    if clip_flags.keepRight then right
    else at_most (left + (self.width : Int)) furthest_right
  let bottom :=
    if clip_flags.keepBottom then bottom
    else at_most (top + (self.height : Int)) furthest_bottom
  if right > left then
    if bottom > top then
      some (Rectangle.new ⟨left, top⟩ ⟨(right - left).toNat, (bottom - top).toNat⟩)
    else none
  else none

/-- Rust `Rectangle::clamp` from `rectangle.rs`, translated statement by statement.
The final `(right - left) as u32` / `(bottom - top) as u32` casts are
`Int.toNat`. -/
def Rectangle.clamp (self : Rectangle) (min_dimensions : Dimensions)
    (clip_flags : ClipRectFlags) : Rectangle :=
  let left := self.left
  let top := self.top
  let width := at_least self.width min_dimensions.width
  let height := at_least self.height min_dimensions.height
  let right := if clip_flags.keepRight then self.right else left + (width : Int)
  let bottom := if clip_flags.keepBottom then self.bottom else top + (height : Int)
  let left := if clip_flags.keepLeft then self.left else right - (width : Int)
  let top := if clip_flags.keepTop then self.top else bottom - (height : Int)
  let width := (right - left).toNat
  let height := (bottom - top).toNat
  Rectangle.new ⟨left, top⟩ ⟨width, height⟩

/-- Display upscaling mode, from `display_info.rs`. -/
inductive UpscaleMode
  | Unknown
  | Center
  | Stretch
deriving DecidableEq, Repr

/-- Display physical connection type, from `display_info.rs`. -/
inductive ConnectionType
  | Unknown
  | VGA
  | DVI
  | HDMI
  | DisplayPort
  | Internal
deriving DecidableEq, Repr

/-- A supported fullscreen display mode, from `display_info.rs`. -/
structure DisplayMode where
  dimensions : Dimensions
  refresh_rate : Nat
  refresh_rate_num : Nat
  refresh_rate_denom : Nat
  upscale_mode : UpscaleMode
deriving DecidableEq, Repr

/-- A display's full and work rectangles, from `display_info.rs`. -/
structure DisplayRects where
  virtual_rect : Rectangle
  work_rect : Rectangle
deriving DecidableEq, Repr

/-- Generic display info, from `display_info.rs`
(the `dpi_scale : f32` field is omitted: floating point, unused here). -/
structure DisplayInfo where
  name : Option String
  is_primary : Bool
  rects : DisplayRects
  connection : ConnectionType
  current_mode : DisplayMode
  preferred_mode : DisplayMode
  display_modes : List DisplayMode
  min_dimensions : Dimensions
deriving DecidableEq, Repr

/-- Windows-specific display info (`DisplayInfoWin`); the native `HMONITOR`
handle is modelled as a numeric id. -/
structure DisplayInfoWin where
  monitor : Nat
deriving DecidableEq, Repr

/-- On Windows `DisplayInfoPlatform` is `DisplayInfoWin`. -/
abbrev DisplayInfoPlatform := DisplayInfoWin

/-- Single display info as returned by the platform enumerator,
from `displays.rs`. -/
structure EnumeratedDisplayInfo where
  info : DisplayInfo
  platform : DisplayInfoPlatform
deriving DecidableEq, Repr

/-- Per-display adjacency info: the index of the adjacent display on each
side, if any (`u32` indices modelled as `Nat`). From `displays.rs`. -/
structure AdjacencyInfo where
  left : Option Nat
  top : Option Nat
  right : Option Nat
  bottom : Option Nat
deriving DecidableEq, Repr

/-- Rust `Default for AdjacencyInfo`: all four sides `none`. -/
def AdjacencyInfo.default : AdjacencyInfo := ⟨none, none, none, none⟩

/-- Single display info as stored by the display manager, from `displays.rs`. -/
structure DisplayInfoFull where
  info : DisplayInfo
  platform : DisplayInfoPlatform
  adjacency_info : AdjacencyInfo
deriving DecidableEq, Repr

/-- The display manager state: the stored display list and the cached
virtual-desktop rectangle. From `displays.rs`. -/
structure Displays where
  displays : List DisplayInfoFull
  virtual_desktop : Option Rectangle
deriving DecidableEq, Repr

/-- Rust `Displays::new`: empty list, no virtual desktop. -/
def Displays.new : Displays := ⟨[], none⟩

/-- Flags of `closest_dimensions`, from `display_info.rs`. -/
inductive ClosestDimensionsFlags
  | Closest
  | ClosestSmallerOrEqual
deriving DecidableEq, Repr

/-- Rust `closest_dimensions` from `display_info.rs`, translated statement by
statement.  The loop state is `(min_difference, found, found_smaller)` with
`min_difference` seeded at `std::u32::MAX`; the `found.expect(..)` panic
(empty mode list, or every difference equal to `u32::MAX`) is modelled by
returning `none`. -/
def closest_dimensions (display_modes : List DisplayMode)
    (dimensions : Dimensions) (flags : ClosestDimensionsFlags) :
    Option Dimensions :=
  let area := dimensions.area
  let state := display_modes.enum.foldl
    (fun (state : Nat × Option Nat × Option Nat) (entry : Nat × DisplayMode) =>
      let min_difference := state.1
      let found := state.2.1
      let found_smaller := state.2.2
      let index := entry.1
      let mode := entry.2
      let mode_area := mode.dimensions.area
      let area_difference :=
        if mode_area > area then mode_area - area else area - mode_area
      if area_difference < min_difference then
        let found := some index
        let found_smaller :=
          match flags with
          | ClosestDimensionsFlags.Closest => found_smaller
          | ClosestDimensionsFlags.ClosestSmallerOrEqual =>
            if mode.dimensions.width ≤ dimensions.width
                ∧ mode.dimensions.height ≤ dimensions.height then
              some index
            else
              found_smaller
        (area_difference, found, found_smaller)
      else
        (min_difference, found, found_smaller))
    (u32MAX, none, none)
  match state.2.1 with
  | none => none
  | some found =>
    let found_smaller := state.2.2.getD found
    let found :=
      match flags with
      | ClosestDimensionsFlags.Closest => found
      | ClosestDimensionsFlags.ClosestSmallerOrEqual => found_smaller
    (display_modes.get? found).map DisplayMode.dimensions

/-- The virtual rectangle of the display at index `i` of the enumerated list
(`displays[i].info.rects.virtual_rect`; indexing in Rust would panic out of
range, which the `debug_assert` in `calc_adjacency_info` rules out — the
default value here is never reached in contract). -/
def display_rect (displays : List EnumeratedDisplayInfo) (i : Nat) : Rectangle :=
  match displays.get? i with
  | some d => d.info.rects.virtual_rect
  | none => Rectangle.new ⟨0, 0⟩ ⟨0, 0⟩

/-- Body of the `for (i, display_info) in displays.iter().enumerate()` loop of
`Displays::calc_adjacency_info`: skip `i == display_index`, then test each of
the four exact-touch conditions, unconditionally overwriting that side's
slot (`Option::replace`) on a match. -/
def adj_step (displays : List EnumeratedDisplayInfo) (display_index : Nat)
    (rectangle : Rectangle) (adjacency : AdjacencyInfo) (i : Nat) :
    AdjacencyInfo :=
  if i = display_index then adjacency
  else
    match displays.get? i with
    | none => adjacency
    | some display_info =>
      let other_rectangle := display_info.info.rects.virtual_rect
      let adjacency :=
        if other_rectangle.right = rectangle.left then
          { adjacency with left := some i }
        else adjacency
      let adjacency :=
        if other_rectangle.left = rectangle.right then
          { adjacency with right := some i }
        else adjacency
      let adjacency :=
        if other_rectangle.bottom = rectangle.top then
          { adjacency with top := some i }
        else adjacency
      let adjacency :=
        if other_rectangle.top = rectangle.bottom then
          { adjacency with bottom := some i }
        else adjacency
      adjacency

/-- Rust `Displays::calc_adjacency_info` from `displays.rs`: the
`iter().enumerate()` loop visits exactly the pairs `(i, displays[i])` for
`i < displays.len()` in increasing index order, modelled as a fold over
`List.range displays.length`. -/
def calc_adjacency_info (displays : List EnumeratedDisplayInfo)
    (display_index : Nat) : AdjacencyInfo :=
  let rectangle := display_rect displays display_index
  (List.range displays.length).foldl
    (adj_step displays display_index rectangle) AdjacencyInfo.default

/-- The virtual-desktop block of `Displays::enumerate_displays`
(`displays.rs` lines 118-145), as a function of the freshly stored display
list: `none` when the list is empty, otherwise a single loop folding
`min`/`max` of the four edges of every display's `virtual_rect` — with all
four accumulators seeded at `0`, exactly as in the source. -/
def calc_virtual_desktop (displays : List DisplayInfoFull) : Option Rectangle :=
  if displays.isEmpty then none
  else
    let acc := displays.foldl
      (fun (acc : Int × Int × Int × Int) display =>
        let virtual_rect := display.info.rects.virtual_rect
        (min acc.1 virtual_rect.left,
         min acc.2.1 virtual_rect.top,
         max acc.2.2.1 virtual_rect.right,
         max acc.2.2.2 virtual_rect.bottom))
      (0, 0, 0, 0)
    let virtual_desktop_width := (acc.2.2.1 - acc.1).toNat
    let virtual_desktop_height := (acc.2.2.2 - acc.2.1).toNat
    some (Rectangle.new ⟨acc.1, acc.2.1⟩
      ⟨virtual_desktop_width, virtual_desktop_height⟩)

/-- Rust `Displays::enumerate_displays`: the OS collaborator's result is the
explicit `platform_result` argument; the `?` operator returns the failure
before any state is touched, otherwise the stored list is atomically replaced
and the adjacency info and virtual-desktop rectangle recomputed. -/
def enumerate_displays (self : Displays)
    (platform_result : Except Unit (List EnumeratedDisplayInfo)) :
    Except Unit Nat × Displays :=
  match platform_result with
  | Except.error e => (Except.error e, self)
  | Except.ok displays =>
    let num_displays := displays.length
    let adjacency_info := (List.range displays.length).map
      (fun index => calc_adjacency_info displays index)
    let displays' := (displays.zip adjacency_info).map
      (fun p => DisplayInfoFull.mk p.1.info p.1.platform p.2)
    let self := { self with displays := displays' }
    let self := { self with virtual_desktop := calc_virtual_desktop self.displays }
    (Except.ok num_displays, self)

/-- The virtual-desktop rectangle as the specification words it (spec
section 4.4): the union bounding box of all displays' virtual rectangles,
the fold seeded from the first display's own rectangle.  Used only to compare
against the source's `calc_virtual_desktop`. -/
def spec_virtual_desktop (displays : List DisplayInfoFull) : Option Rectangle :=
  match displays with
  | [] => none
  | first :: rest =>
    let r0 := first.info.rects.virtual_rect
    let acc := rest.foldl
      (fun (acc : Int × Int × Int × Int) display =>
        let virtual_rect := display.info.rects.virtual_rect
        (min acc.1 virtual_rect.left,
         min acc.2.1 virtual_rect.top,
         max acc.2.2.1 virtual_rect.right,
         max acc.2.2.2 virtual_rect.bottom))
      (r0.left, r0.top, r0.right, r0.bottom)
    some (Rectangle.new ⟨acc.1, acc.2.1⟩
      ⟨(acc.2.2.1 - acc.1).toNat, (acc.2.2.2 - acc.2.1).toNat⟩)

/-- Specification wording of one adjacency side: `result` is `some j` exactly
when `j` is the largest index below `n`, distinct from `i`, whose rectangle
satisfies the side's exact-touch condition `touches`, and `none` exactly when
no such index exists. -/
def last_touching_spec (n i : Nat) (touches : Nat → Prop) (result : Option Nat) :
    Prop :=
  (∀ j, result = some j ↔
    (j < n ∧ j ≠ i ∧ touches j ∧ ∀ k, k < n → k ≠ i → touches k → k ≤ j))
  ∧ (result = none ↔ ∀ k, k < n → k ≠ i → ¬touches k)

/-- Greatest index below `n` satisfying `p`, if any (helper for reasoning
about the last-overwrite-wins adjacency fold). -/
def last_match (p : Nat → Bool) : Nat → Option Nat
  | 0 => none
  | n + 1 => if p n then some n else last_match p n

/-- Concrete display mode with 5 by 90 dimensions (used as a test input). -/
def mode_5x90 : DisplayMode := ⟨⟨5, 90⟩, 60, 60000, 1000, UpscaleMode.Unknown⟩

/-- Concrete display mode with 20 by 20 dimensions (used as a test input). -/
def mode_20x20 : DisplayMode := ⟨⟨20, 20⟩, 60, 60000, 1000, UpscaleMode.Unknown⟩

/-- Concrete generic display info whose virtual rectangle is `rect`. -/
def sample_info (rect : Rectangle) : DisplayInfo :=
  ⟨none, true, ⟨rect, rect⟩, ConnectionType.Unknown, mode_20x20, mode_20x20,
    [mode_20x20], ⟨20, 20⟩⟩

/-- Concrete stored display whose virtual rectangle lies strictly in positive
coordinate space: position `(100, 100)`, size `50` by `50`. -/
def display_at_100 : DisplayInfoFull :=
  ⟨sample_info (Rectangle.new ⟨100, 100⟩ ⟨50, 50⟩), ⟨0⟩, AdjacencyInfo.default⟩

/-- Concrete enumerated display with the given virtual rectangle. -/
def sample_display (left top : Int) (width height : Nat) :
    EnumeratedDisplayInfo :=
  ⟨sample_info (Rectangle.new ⟨left, top⟩ ⟨width, height⟩), ⟨0⟩⟩

/-- Two concrete displays touching along a vertical edge at `x = 100`. -/
def two_displays : List EnumeratedDisplayInfo :=
  [sample_display 0 0 100 100, sample_display 100 0 100 100]

/-- Concrete unit rectangle at the origin. -/
def rect_unit : Rectangle := Rectangle.new ⟨0, 0⟩ ⟨1, 1⟩

/-- C1: the claim says `closest_dimensions` under `ClosestSmallerOrEqual`
returns the constrained minimizer whenever some mode fits within the target;
on modes `[5 by 90, 20 by 20]` with target `22 by 22` the code instead
returns `5 by 90` (taller than the target) although `20 by 20` fits: the
constrained best is only recorded on iterations that improve the
unconstrained minimum, so the fitting mode, scanned while its area
difference (84) exceeds the running minimum (34), is missed. -/
theorem closest_smaller_or_equal_misses_fitting_mode :
    closest_dimensions [mode_5x90, mode_20x20] ⟨22, 22⟩
        ClosestDimensionsFlags.ClosestSmallerOrEqual = some ⟨5, 90⟩
      ∧ (mode_20x20.dimensions.width ≤ 22 ∧ mode_20x20.dimensions.height ≤ 22)
      ∧ ¬((5 : Nat) ≤ 22 ∧ (90 : Nat) ≤ 22)
      ∧ some mode_20x20.dimensions
          ≠ closest_dimensions [mode_5x90, mode_20x20] ⟨22, 22⟩
              ClosestDimensionsFlags.ClosestSmallerOrEqual := by
  decide

/-- C2: the claim says the virtual-desktop rectangle equals the union
bounding box of the displays' virtual rectangles, the fold seeded from the
first display's rectangle; the code seeds the fold from zero, so for a single
display at `(100, 100)` of size `50` by `50` it produces `(0, 0)` to
`(150, 150)`, truncated to include the origin, instead of the display's own
rectangle. -/
theorem virtual_desktop_zero_seed_defect :
    calc_virtual_desktop [display_at_100]
        = some (Rectangle.new ⟨0, 0⟩ ⟨150, 150⟩)
      ∧ spec_virtual_desktop [display_at_100]
        = some (Rectangle.new ⟨100, 100⟩ ⟨50, 50⟩)
      ∧ calc_virtual_desktop [display_at_100]
        ≠ spec_virtual_desktop [display_at_100]
      ∧ (enumerate_displays Displays.new
            (Except.ok [sample_display 100 100 50 50])).2.virtual_desktop
        = some (Rectangle.new ⟨0, 0⟩ ⟨150, 150⟩) := by
  decide

/-- C3: the claim says `clamp` always returns a rectangle at least as large
as both the original and `min_dimensions`, for every flag combination
including `KeepAll`; with `KeepAll` both edges of each axis are pinned, so on
a `1` by `1` rectangle with minimum `3` by `2` the code returns the rectangle
unchanged, its width `1` below the required `max 1 3 = 3` and its height `1`
below `max 1 2 = 2` (the source's own
`debug_assert!(right >= left + min_dimensions.width)` fails here). -/
theorem clamp_keep_all_fails_to_grow :
    Rectangle.clamp (Rectangle.new ⟨0, 0⟩ ⟨1, 1⟩) ⟨3, 2⟩ ClipRectFlags.KeepAll
        = Rectangle.new ⟨0, 0⟩ ⟨1, 1⟩
      ∧ ¬(at_least 1 3 ≤ (Rectangle.clamp (Rectangle.new ⟨0, 0⟩ ⟨1, 1⟩) ⟨3, 2⟩
            ClipRectFlags.KeepAll).dimensions.width)
      ∧ ¬(at_least 1 2 ≤ (Rectangle.clamp (Rectangle.new ⟨0, 0⟩ ⟨1, 1⟩) ⟨3, 2⟩
            ClipRectFlags.KeepAll).dimensions.height) := by
  decide

/-- C4 counterexample: the claim includes rectangles of zero width or zero
height, but clipping a zero-width rectangle to itself with no edges pinned
returns `none` (the final `right > left` check fails), not `some r`. -/
theorem clip_self_zero_width_none :
    Rectangle.clip (Rectangle.new ⟨0, 0⟩ ⟨0, 1⟩) (Rectangle.new ⟨0, 0⟩ ⟨0, 1⟩)
      ClipRectFlags.KeepNone = none := by
  decide

/-- C5 counterexample: the claim says `area()` saturates on overflow; the
code's `u32` multiplication wraps modulo `2^32`, so `65536 * 65536` yields
`0`, not the saturated `u32::MAX`. -/
theorem area_not_saturating :
    Dimensions.area ⟨65536, 65536⟩ = 0
      ∧ Dimensions.area ⟨65536, 65536⟩ ≠ u32MAX := by
  decide

/-- C5 amended: `area()` returns the exact product whenever it is
representable in 32 bits, and wraps modulo `2^32` (rather than saturating)
otherwise. -/
theorem area_eq_mul_of_lt_u32 (d : Dimensions)
    (h : d.width * d.height < u32Mod) :
    d.area = d.width * d.height := by
  simp [Dimensions.area, Nat.mod_eq_of_lt h]

/-- Witness for the amended C5 theorem at dimensions `2` by `3`. -/
theorem area_eq_mul_of_lt_u32_witness :
    2 * 3 < u32Mod ∧ Dimensions.area ⟨2, 3⟩ = 2 * 3 :=
  ⟨by decide, area_eq_mul_of_lt_u32 ⟨2, 3⟩ (by decide)⟩

/-- C7: when the OS enumeration collaborator fails, `enumerate_displays`
returns the failure value and leaves the registry state (stored display list
and virtual-desktop rectangle) completely unchanged: the `?` operator
propagates the error before any mutation. -/
theorem enumerate_displays_error_keeps_state (self : Displays) :
    enumerate_displays self (Except.error ()) = (Except.error (), self) :=
  rfl

/-- C8: `overlaps` is symmetric: each strict open-interval comparison maps to
its mirror under exchanging the two rectangles. -/
theorem overlaps_comm (a b : Rectangle) : a.overlaps b = b.overlaps a := by
  rw [Bool.eq_iff_iff]
  simp only [Rectangle.overlaps, Rectangle.left, Rectangle.right, Rectangle.top,
    Rectangle.bottom, Bool.and_eq_true, decide_eq_true_eq]
  omega

/-- C4 amended: for every rectangle of positive width and positive height,
clipping it to itself with no edges pinned succeeds and returns it
unchanged (zero-sized rectangles instead yield `none`). -/
theorem clip_self_keep_none_eq (r : Rectangle) (hw : 0 < r.dimensions.width)
    (hh : 0 < r.dimensions.height) :
    r.clip r ClipRectFlags.KeepNone = some r := by
  obtain ⟨⟨l, t⟩, ⟨w, h⟩⟩ := r
  simp only [Dimensions.width, Dimensions.height] at hw hh
  simp only [Rectangle.clip, ClipRectFlags.KeepNone, Rectangle.left,
    Rectangle.right, Rectangle.top, Rectangle.bottom, Rectangle.width,
    Rectangle.height, at_most, at_least, Rectangle.new, min_self,
    Bool.false_eq_true, if_false]
  split_ifs with h1 h2
  · simp only [Option.some.injEq, Rectangle.mk.injEq, Position.mk.injEq,
      Dimensions.mk.injEq]
    refine ⟨⟨?_, ?_⟩, ?_, ?_⟩ <;> omega
  · omega
  · omega

/-- Witness for the amended C4 theorem at the unit rectangle. -/
theorem clip_self_keep_none_eq_witness :
    (0 < rect_unit.dimensions.width ∧ 0 < rect_unit.dimensions.height)
      ∧ Rectangle.clip rect_unit rect_unit ClipRectFlags.KeepNone
          = some rect_unit :=
  ⟨by decide, clip_self_keep_none_eq rect_unit (by decide) (by decide)⟩

/-- C9: whenever `clip` succeeds, the result has strictly positive width and
height and lies entirely within the bounds (`contains(bounds, result)`). -/
theorem clip_some_positive_and_contained (self bounds : Rectangle)
    (flags : ClipRectFlags) (result : Rectangle)
    (h : self.clip bounds flags = some result) :
    0 < result.dimensions.width ∧ 0 < result.dimensions.height
      ∧ bounds.contains result = true := by
  obtain ⟨kl, kr, kt, kb⟩ := flags
  obtain ⟨⟨sl, st⟩, ⟨sw, sh⟩⟩ := self
  obtain ⟨⟨bl, bt⟩, ⟨bw, bh⟩⟩ := bounds
  simp only [Rectangle.clip, Rectangle.left, Rectangle.right, Rectangle.top,
    Rectangle.bottom, Rectangle.width, Rectangle.height, at_most, at_least,
    Rectangle.new] at h
  cases kl <;> cases kr <;> cases kt <;> cases kb <;>
    simp only [Bool.false_eq_true, if_false, if_true] at h <;>
    split_ifs at h with h1 h2 <;>
    rw [Option.some.injEq] at h <;>
    subst h <;>
    simp only [Rectangle.contains, Rectangle.left, Rectangle.right,
      Rectangle.top, Rectangle.bottom, Bool.and_eq_true, decide_eq_true_eq] <;>
    omega

/-- Witness for the C9 theorem with the unit rectangle clipped to itself. -/
theorem clip_some_positive_and_contained_witness :
    Rectangle.clip rect_unit rect_unit ClipRectFlags.KeepNone = some rect_unit
      ∧ (0 < rect_unit.dimensions.width ∧ 0 < rect_unit.dimensions.height
          ∧ rect_unit.contains rect_unit = true) :=
  ⟨by decide, clip_some_positive_and_contained rect_unit rect_unit
    ClipRectFlags.KeepNone rect_unit (by decide)⟩

/-- The `left` slot after one adjacency loop iteration: overwritten with `i`
exactly when `i` is a distinct in-range index whose rectangle's right edge
touches the examined rectangle's left edge. -/
theorem adj_step_left (displays : List EnumeratedDisplayInfo) (di : Nat)
    (r : Rectangle) (a : AdjacencyInfo) (i : Nat) :
    (adj_step displays di r a i).left =
      if i ≠ di ∧ i < displays.length ∧ (display_rect displays i).right = r.left
      then some i else a.left := by
  unfold adj_step
  by_cases hdi : i = di
  · simp [hdi]
  · cases hg : displays.get? i with
    | none =>
      have hi : ¬i < displays.length := by
        have := List.get?_eq_none.mp hg
        omega
      simp [hdi, hg, hi]
    | some d =>
      have hi : i < displays.length := by
        by_contra hn
        rw [List.get?_eq_none.mpr (Nat.le_of_not_lt hn)] at hg
        exact Option.noConfusion hg
      have hr : display_rect displays i = d.info.rects.virtual_rect := by
        unfold display_rect
        rw [hg]
      rw [if_neg hdi]
      simp only [hg, hr, hi, hdi]
      split_ifs <;> simp_all

/-- The `right` slot after one adjacency loop iteration. -/
theorem adj_step_right (displays : List EnumeratedDisplayInfo) (di : Nat)
    (r : Rectangle) (a : AdjacencyInfo) (i : Nat) :
    (adj_step displays di r a i).right =
      if i ≠ di ∧ i < displays.length ∧ (display_rect displays i).left = r.right
      then some i else a.right := by
  unfold adj_step
  by_cases hdi : i = di
  · simp [hdi]
  · cases hg : displays.get? i with
    | none =>
      have hi : ¬i < displays.length := by
        have := List.get?_eq_none.mp hg
        omega
      simp [hdi, hg, hi]
    | some d =>
      have hi : i < displays.length := by
        by_contra hn
        rw [List.get?_eq_none.mpr (Nat.le_of_not_lt hn)] at hg
        exact Option.noConfusion hg
      have hr : display_rect displays i = d.info.rects.virtual_rect := by
        unfold display_rect
        rw [hg]
      rw [if_neg hdi]
      simp only [hg, hr, hi, hdi]
      split_ifs <;> simp_all

/-- The `top` slot after one adjacency loop iteration. -/
theorem adj_step_top (displays : List EnumeratedDisplayInfo) (di : Nat)
    (r : Rectangle) (a : AdjacencyInfo) (i : Nat) :
    (adj_step displays di r a i).top =
      if i ≠ di ∧ i < displays.length ∧ (display_rect displays i).bottom = r.top
      then some i else a.top := by
  unfold adj_step
  by_cases hdi : i = di
  · simp [hdi]
  · cases hg : displays.get? i with
    | none =>
      have hi : ¬i < displays.length := by
        have := List.get?_eq_none.mp hg
        omega
      simp [hdi, hg, hi]
    | some d =>
      have hi : i < displays.length := by
        by_contra hn
        rw [List.get?_eq_none.mpr (Nat.le_of_not_lt hn)] at hg
        exact Option.noConfusion hg
      have hr : display_rect displays i = d.info.rects.virtual_rect := by
        unfold display_rect
        rw [hg]
      rw [if_neg hdi]
      simp only [hg, hr, hi, hdi]
      split_ifs <;> simp_all

/-- The `bottom` slot after one adjacency loop iteration. -/
theorem adj_step_bottom (displays : List EnumeratedDisplayInfo) (di : Nat)
    (r : Rectangle) (a : AdjacencyInfo) (i : Nat) :
    (adj_step displays di r a i).bottom =
      if i ≠ di ∧ i < displays.length ∧ (display_rect displays i).top = r.bottom
      then some i else a.bottom := by
  unfold adj_step
  by_cases hdi : i = di
  · simp [hdi]
  · cases hg : displays.get? i with
    | none =>
      have hi : ¬i < displays.length := by
        have := List.get?_eq_none.mp hg
        omega
      simp [hdi, hg, hi]
    | some d =>
      have hi : i < displays.length := by
        by_contra hn
        rw [List.get?_eq_none.mpr (Nat.le_of_not_lt hn)] at hg
        exact Option.noConfusion hg
      have hr : display_rect displays i = d.info.rects.virtual_rect := by
        unfold display_rect
        rw [hg]
      rw [if_neg hdi]
      simp only [hg, hr, hi, hdi]
      split_ifs <;> simp_all

/-- A projection of the adjacency fold whose step conditionally overwrites it
computes the last matching index of the scan, falling back to the initial
value. -/
theorem foldl_adj_proj (step : AdjacencyInfo → Nat → AdjacencyInfo)
    (f : AdjacencyInfo → Option Nat) (p : Nat → Bool)
    (hstep : ∀ a i, f (step a i) = if p i then some i else f a) (n : Nat)
    (a : AdjacencyInfo) :
    f ((List.range n).foldl step a) = (last_match p n).elim (f a) some := by
  induction n generalizing a with
  | zero => simp [last_match]
  | succ m ih =>
    rw [List.range_succ, List.foldl_append, List.foldl_cons, List.foldl_nil,
      hstep]
    unfold last_match
    by_cases hp : p m = true
    · simp [hp]
    · simp only [Bool.not_eq_true] at hp
      simp [hp, ih]

/-- Characterization of `last_match`: it returns `some j` exactly when `j` is
the greatest index below `n` satisfying `p`. -/
theorem last_match_eq_some (p : Nat → Bool) (n j : Nat) :
    last_match p n = some j ↔
      j < n ∧ p j = true ∧ ∀ k, k < n → p k = true → k ≤ j := by
  induction n with
  | zero => simp [last_match]
  | succ m ih =>
    unfold last_match
    by_cases hp : p m = true
    · rw [if_pos hp]
      simp only [Option.some.injEq]
      constructor
      · rintro rfl
        exact ⟨Nat.lt_succ_self m, hp, fun k hk _ => Nat.lt_succ_iff.mp hk⟩
      · rintro ⟨hj, _, hmax⟩
        have := hmax m (Nat.lt_succ_self m) hp
        omega
    · rw [if_neg hp, ih]
      have hpm : p m = false := Bool.not_eq_true _ |>.mp hp
      constructor
      · rintro ⟨hj, hpj, hmax⟩
        refine ⟨by omega, hpj, fun k hk hpk => ?_⟩
        rcases Nat.lt_succ_iff_lt_or_eq.mp hk with hk' | rfl
        · exact hmax k hk' hpk
        · rw [hpm] at hpk
          exact Bool.noConfusion hpk
      · rintro ⟨hj, hpj, hmax⟩
        have hjm : j ≠ m := by
          rintro rfl
          rw [hpm] at hpj
          exact Bool.noConfusion hpj
        exact ⟨by omega, hpj, fun k hk hpk => hmax k (by omega) hpk⟩

/-- Characterization of `last_match`: it returns `none` exactly when no index
below `n` satisfies `p`. -/
theorem last_match_eq_none (p : Nat → Bool) (n : Nat) :
    last_match p n = none ↔ ∀ k, k < n → p k = false := by
  induction n with
  | zero => simp [last_match]
  | succ m ih =>
    unfold last_match
    by_cases hp : p m = true
    · rw [if_pos hp]
      constructor
      · intro h
        exact Option.noConfusion h
      · intro hall
        rw [hall m (Nat.lt_succ_self m)] at hp
        exact Bool.noConfusion hp
    · rw [if_neg hp, ih]
      have hpm : p m = false := Bool.not_eq_true _ |>.mp hp
      constructor
      · intro hall k hk
        rcases Nat.lt_succ_iff_lt_or_eq.mp hk with hk' | rfl
        · exact hall k hk'
        · exact hpm
      · intro hall k hk
        exact hall k (by omega)

/-- Any side of `calc_adjacency_info` whose step behaves as a conditional
overwrite satisfies the last-touching specification of that side. -/
theorem adjacency_side_spec (displays : List EnumeratedDisplayInfo) (i : Nat)
    (proj : AdjacencyInfo → Option Nat) (touches : Nat → Prop)
    [DecidablePred touches]
    (hstep : ∀ a k,
      proj (adj_step displays i (display_rect displays i) a k)
        = if k ≠ i ∧ k < displays.length ∧ touches k then some k else proj a)
    (hdef : proj AdjacencyInfo.default = none) :
    last_touching_spec displays.length i touches
      (proj (calc_adjacency_info displays i)) := by
  have hb : ∀ (a : AdjacencyInfo) (k : Nat),
      proj (adj_step displays i (display_rect displays i) a k)
        = if decide (k ≠ i ∧ k < displays.length ∧ touches k) then some k
          else proj a := by
    intro a k
    rw [hstep]
    by_cases hc : k ≠ i ∧ k < displays.length ∧ touches k <;> simp [hc]
  have hfold := foldl_adj_proj (adj_step displays i (display_rect displays i))
    proj (fun k => decide (k ≠ i ∧ k < displays.length ∧ touches k)) hb
    displays.length AdjacencyInfo.default
  simp only [calc_adjacency_info]
  rw [hfold, hdef]
  rcases hlm : last_match
      (fun k => decide (k ≠ i ∧ k < displays.length ∧ touches k))
      displays.length with _ | j
  · simp only [Option.elim, last_touching_spec]
    have hnone := (last_match_eq_none _ _).mp hlm
    refine ⟨fun j => ⟨fun h => Option.noConfusion h, ?_⟩, ?_, fun _ => by trivial⟩
    · rintro ⟨hj, hji, htj, _⟩
      have := hnone j hj
      rw [decide_eq_false_iff_not] at this
      exact absurd ⟨hji, hj, htj⟩ this
    · intro _ k hk hki htk
      have := hnone k hk
      rw [decide_eq_false_iff_not] at this
      exact this ⟨hki, hk, htk⟩
  · simp only [Option.elim, last_touching_spec]
    obtain ⟨hjn, hpj, hmax⟩ := (last_match_eq_some _ _ j).mp hlm
    rw [decide_eq_true_eq] at hpj
    obtain ⟨hji, _, htj⟩ := hpj
    constructor
    · intro j'
      constructor
      · intro h
        have hjj : j = j' := Option.some.inj h
        subst hjj
        exact ⟨hjn, hji, htj, fun k hk hki htk =>
          hmax k hk (decide_eq_true ⟨hki, hk, htk⟩)⟩
      · rintro ⟨hj'n, hj'i, htj', hmax'⟩
        have h1 : j ≤ j' := hmax' j hjn hji htj
        have h2 : j' ≤ j := hmax j' hj'n (decide_eq_true ⟨hj'i, hj'n, htj'⟩)
        exact congrArg some (by omega)
    · refine ⟨fun h => Option.noConfusion h, fun hall => ?_⟩
      exact absurd htj (hall j hjn hji)

/-- C6: for every display list and display index, each side of the computed
`AdjacencyInfo` holds `some j` exactly when `j` is the largest in-range index
distinct from the display's own whose virtual rectangle exactly touches that
side (right edge equal to the display's left edge for `left`, and
symmetrically), and `none` exactly when no such index exists — so gaps and
overlaps never count, and among several touching displays the last in index
order wins. -/
theorem calc_adjacency_characterization (displays : List EnumeratedDisplayInfo)
    (i : Nat) :
    last_touching_spec displays.length i
        (fun j => (display_rect displays j).right = (display_rect displays i).left)
        (calc_adjacency_info displays i).left
      ∧ last_touching_spec displays.length i
        (fun j => (display_rect displays j).left = (display_rect displays i).right)
        (calc_adjacency_info displays i).right
      ∧ last_touching_spec displays.length i
        (fun j => (display_rect displays j).bottom = (display_rect displays i).top)
        (calc_adjacency_info displays i).top
      ∧ last_touching_spec displays.length i
        (fun j => (display_rect displays j).top = (display_rect displays i).bottom)
        (calc_adjacency_info displays i).bottom :=
  ⟨adjacency_side_spec displays i (fun a => a.left) _
      (fun a k => adj_step_left displays i (display_rect displays i) a k) rfl,
    adjacency_side_spec displays i (fun a => a.right) _
      (fun a k => adj_step_right displays i (display_rect displays i) a k) rfl,
    adjacency_side_spec displays i (fun a => a.top) _
      (fun a k => adj_step_top displays i (display_rect displays i) a k) rfl,
    adjacency_side_spec displays i (fun a => a.bottom) _
      (fun a k => adj_step_bottom displays i (display_rect displays i) a k) rfl⟩

/-- C10: whichever side of a display's computed `AdjacencyInfo` is present,
the reported neighbor index differs from the display's own index (the loop
skips `i == display_index`, so even a degenerate rectangle is never its own
neighbor) and is strictly below the number of displays. -/
theorem adjacency_neighbor_index_valid (displays : List EnumeratedDisplayInfo)
    (i j : Nat)
    (h : (calc_adjacency_info displays i).left = some j
      ∨ (calc_adjacency_info displays i).top = some j
      ∨ (calc_adjacency_info displays i).right = some j
      ∨ (calc_adjacency_info displays i).bottom = some j) :
    j ≠ i ∧ j < displays.length := by
  rcases h with h | h | h | h
  · have hs := adjacency_side_spec displays i (fun a => a.left) _
      (fun a k => adj_step_left displays i (display_rect displays i) a k) rfl
    obtain ⟨hj, hji, -, -⟩ := (hs.1 j).mp h
    exact ⟨hji, hj⟩
  · have hs := adjacency_side_spec displays i (fun a => a.top) _
      (fun a k => adj_step_top displays i (display_rect displays i) a k) rfl
    obtain ⟨hj, hji, -, -⟩ := (hs.1 j).mp h
    exact ⟨hji, hj⟩
  · have hs := adjacency_side_spec displays i (fun a => a.right) _
      (fun a k => adj_step_right displays i (display_rect displays i) a k) rfl
    obtain ⟨hj, hji, -, -⟩ := (hs.1 j).mp h
    exact ⟨hji, hj⟩
  · have hs := adjacency_side_spec displays i (fun a => a.bottom) _
      (fun a k => adj_step_bottom displays i (display_rect displays i) a k) rfl
    obtain ⟨hj, hji, -, -⟩ := (hs.1 j).mp h
    exact ⟨hji, hj⟩

/-- Witness for the C10 theorem: in the two-display layout touching at
`x = 100`, display `0` reports display `1` as its right neighbor, and `1` is
a valid index distinct from `0`. -/
theorem adjacency_neighbor_index_valid_witness :
    (calc_adjacency_info two_displays 0).right = some 1
      ∧ (1 ≠ 0 ∧ 1 < two_displays.length) :=
  ⟨by decide, adjacency_neighbor_index_valid two_displays 0 1
    (Or.inr (Or.inr (Or.inl (by decide))))⟩

end Minidisplay
